import Mathlib

/-!
# CareerAgent core pipeline: a shallow embedding with proofs

This file embeds the structured-extraction and quality-validation core of the
CareerAgent repository in Lean 4 and proves properties of the embedded code:

* `src/core/models.py` — the `QualityCheck` / `EmailDraft` / `CVProfile` /
  `ContactCandidate` records together with their derived-field validators;
* `src/core/validators.py` — `DraftValidator.validate_draft` and its seven
  regex-based checks;
* `src/core/llm.py` — `LocalLLMClient._clean_json_response` (brace-matching
  extraction) and `LocalLLMClient.generate_json` (temperature-decay retry);
* `src/core/cv_parser.py` — `CVParser.parse_text` and its degradation policy;
* `src/core/contact_finder.py` — `ContactFinder.generate_email_permutations`,
  `_calculate_confidence` and `_extract_contact_from_result`.

Python strings are modelled as `List Char` (wrapped in `String` at API
boundaries), Python floats as exact rationals `ℚ`, raised exceptions as
`Except`/`Option` failure values, and the external LLM / JSON library calls as
explicitly quantified oracle functions.
-/

/-! ## Basic Python string helpers -/

/-- The ASCII whitespace characters recognised by Python's `str.strip`,
`str.split` and the regex class `\s`. -/
def isPySpace (c : Char) : Bool :=
  c = ' ' || c = '\t' || c = '\n' || c = '\r' || c = '\x0b' || c = '\x0c'

/-- Python `str.strip()`: drop whitespace from both ends. -/
def pyStrip (l : List Char) : List Char :=
  ((l.dropWhile isPySpace).reverse.dropWhile isPySpace).reverse

/-- Lower-case a character (ASCII case mapping, as used by `str.lower`). -/
def toLowerCh (c : Char) : Char := c.toLower

/-- Python `needle in hay` substring containment on character lists. -/
def containsSeq (needle hay : List Char) : Bool :=
  hay.tails.any (fun t => needle.isPrefixOf t)

/-- Substring containment on `String`s (Python `needle in hay`). -/
def containsSubstr (needle hay : String) : Bool :=
  containsSeq needle.data hay.data

/-- Auxiliary accumulator for `splitWs`. -/
def splitWsAux : List Char → List Char → List (List Char)
  | [], acc => if acc.isEmpty then [] else [acc.reverse]
  | c :: rest, acc =>
    if isPySpace c then
      if acc.isEmpty then splitWsAux rest [] else acc.reverse :: splitWsAux rest []
    else
      splitWsAux rest (c :: acc)

/-- Python `str.split()` with no argument: split on runs of whitespace,
discarding empty pieces. -/
def splitWs (l : List Char) : List (List Char) := splitWsAux l []

/-- Auxiliary accumulator for `splitOnChar`. -/
def splitOnCharAux (sep : Char) : List Char → List Char → List (List Char)
  | [], acc => [acc.reverse]
  | c :: rest, acc =>
    if c = sep then acc.reverse :: splitOnCharAux sep rest []
    else splitOnCharAux sep rest (c :: acc)

/-- Python `str.split(sep)` for a one-character separator. -/
def splitOnChar (sep : Char) (l : List Char) : List (List Char) :=
  splitOnCharAux sep l []

/-- Python truthiness of an optional string: `None` and `""` are falsy. -/
def pyTruthy : Option String → Bool
  | none => false
  | some s => !(s.data.isEmpty)

/-! ## `src/core/validators.py` — the seven draft-quality checks

Each `re.search` call of the source is embedded as a direct scan over the
character list.  Case-insensitive searches (`re.IGNORECASE`) are modelled by
lower-casing the text and matching lower-case patterns. -/

/-- Search for a digit immediately followed by a character satisfying `p`.
A substring matches `\d+X` iff its last digit is directly followed by `X`,
so this scan is equivalent to `re.search` for such patterns. -/
def digitThen (p : Char → Bool) : List Char → Bool
  | c₁ :: c₂ :: rest => (c₁.isDigit && p c₂) || digitThen p (c₂ :: rest)
  | _ => false

/-- First character is a digit. -/
def headDigit : List Char → Bool
  | c :: _ => c.isDigit
  | [] => false

/-- Skip a (possibly empty) run of whitespace: the regex `\s*` ending right
before a non-whitespace continuation. -/
def skipWs (l : List Char) : List Char := l.dropWhile isPySpace

/-- The unit words of the metric pattern `\d+\s*(?:users|customers|developers|engineers)`. -/
def metricUnitWords : List (List Char) :=
  ["users".data, "customers".data, "developers".data, "engineers".data]

/-- Embeds `re.search(r"\d+\s*(?:users|customers|developers|engineers)", text, re.IGNORECASE)`
on lower-cased text: a digit, optional whitespace, then one of the unit words. -/
def digitUnitSearch : List Char → Bool
  | [] => false
  | c :: rest =>
    (c.isDigit && metricUnitWords.any (fun w => w.isPrefixOf (skipWs rest))) ||
    digitUnitSearch rest

/-- The change verbs of the metric pattern
`(?:increased|decreased|improved|reduced|grew|scaled)\s+(?:by\s+)?\d+`. -/
def changeVerbs : List (List Char) :=
  ["increased".data, "decreased".data, "improved".data, "reduced".data,
   "grew".data, "scaled".data]

/-- After a change verb: at least one whitespace, then either a digit or the
word `by` followed by at least one whitespace and a digit (the regex
`\s+(?:by\s+)?\d+`; the optional `by` group can only fire when a digit
follows its trailing whitespace). -/
def afterChangeVerb : List Char → Bool
  | [] => false
  | c :: rest =>
    isPySpace c &&
      (let t := skipWs rest
       headDigit t ||
         ("by".data.isPrefixOf t &&
           match t.drop 2 with
           | c' :: rest' => isPySpace c' && headDigit (skipWs rest')
           | [] => false))

/-- Embeds `re.search` for the change-verb metric pattern on lower-cased text. -/
def changeVerbSearch : List Char → Bool
  | [] => false
  | c :: rest =>
    (changeVerbs.any fun v => v.isPrefixOf (c :: rest) && afterChangeVerb ((c :: rest).drop v.length)) ||
    changeVerbSearch rest

/-- Embeds `DraftValidator._check_has_metric`: any of the five metric regexes matches
(case-insensitively) somewhere in the text. -/
def check_has_metric (text : List Char) : Bool :=
  let t := text.map toLowerCh
  digitThen (· = '%') t ||                      -- r"\d+%"
  digitThen (fun c => c = 'k' || c = 'm') t ||  -- r"\d+[KkMm]" on lower-cased text
  digitThen (· = 'x') t ||                      -- r"\d+x" (IGNORECASE)
  digitUnitSearch t ||
  changeVerbSearch t

/-- A character of the URL-body class
`[a-zA-Z]|[0-9]|[$-_@.&+]|[!*\(\),]|%hh` of `DraftValidator.url_pattern`
(the `$-_` range already contains `@.&+` and `%`, and a single class character
satisfies the trailing `+`, so one such character suffices for a match). -/
def urlBodyChar (c : Char) : Bool :=
  c.isAlpha || c.isDigit || ('$' ≤ c && c ≤ '_') ||
  c = '!' || c = '*' || c = '\\' || c = '(' || c = ')' || c = ','

/-- A match of `url_pattern` starts here: literal `http://` or `https://`
followed by at least one URL-body character. -/
def urlAt (l : List Char) : Bool :=
  ("http://".data.isPrefixOf l && headSat urlBodyChar (l.drop 7)) ||
  ("https://".data.isPrefixOf l && headSat urlBodyChar (l.drop 8))
where
  /-- The head of the list exists and satisfies `p`. -/
  headSat (p : Char → Bool) : List Char → Bool
    | c :: _ => p c
    | [] => false

/-- Embeds `DraftValidator._check_has_link`: `url_pattern.findall(text)` is non-empty,
i.e. the URL regex matches somewhere (case-sensitively). -/
def check_has_link : List Char → Bool
  | [] => false
  | c :: rest => urlAt (c :: rest) || check_has_link rest

/-- Embeds CTA pattern 2, `(?:available|free)\s+(?:this week|next week|to chat)`,
at one position of the lower-cased text. -/
def ctaAvailAt (l : List Char) : Bool :=
  ["available".data, "free".data].any fun w =>
    w.isPrefixOf l &&
      (match l.drop w.length with
       | c :: rest =>
         isPySpace c &&
           ["this week".data, "next week".data, "to chat".data].any
             (fun t => t.isPrefixOf (skipWs rest))
       | [] => false)

/-- Scan for CTA pattern 2 anywhere. -/
def ctaAvailSearch : List Char → Bool
  | [] => false
  | c :: rest => ctaAvailAt (c :: rest) || ctaAvailSearch rest

/-- Embeds CTA pattern 4, `(?:7|10|15)[\s-]*(?:min|minute)`, at one position:
one of the number tokens, a run of whitespace or dashes, then `min`
(`minute` also begins with `min`, so matching `min` is equivalent). -/
def ctaDurationAt (l : List Char) : Bool :=
  ["7".data, "10".data, "15".data].any fun n =>
    n.isPrefixOf l &&
      "min".data.isPrefixOf ((l.drop n.length).dropWhile (fun c => isPySpace c || c = '-'))

/-- Scan for CTA pattern 4 anywhere. -/
def ctaDurationSearch : List Char → Bool
  | [] => false
  | c :: rest => ctaDurationAt (c :: rest) || ctaDurationSearch rest

/-- Embeds `DraftValidator._check_has_cta`: one of the four CTA regexes matches
case-insensitively.  Pattern 1, `(?:quick|brief|short)?\s*(?:call|chat|meeting|demo)`,
reduces to containment of one of its mandatory words because its prefix and the
`\s*` are both optional; pattern 3 is plain word containment. -/
def check_has_cta (text : List Char) : Bool :=
  let t := text.map toLowerCh
  (["call".data, "chat".data, "meeting".data, "demo".data].any (containsSeq · t)) ||
  ctaAvailSearch t ||
  (["discuss".data, "talk".data, "show".data, "demo".data].any (containsSeq · t)) ||
  ctaDurationSearch t

/-- Embeds `DraftValidator._check_word_limit`: `len(body.split()) <= 180`. -/
def check_word_limit (body : List Char) : Bool :=
  (splitWs body).length ≤ 180

/-- Membership in the emoji character class of `DraftValidator.emoji_pattern`
(the seven literal code-point ranges of the source). -/
def isEmojiChar (c : Char) : Bool :=
  let n := c.toNat
  (0x1f600 ≤ n && n ≤ 0x1f64f) ||
  (0x1f300 ≤ n && n ≤ 0x1f5ff) ||
  (0x1f680 ≤ n && n ≤ 0x1f6ff) ||
  (0x1f1e0 ≤ n && n ≤ 0x1f1ff) ||
  (0x2702 ≤ n && n ≤ 0x27b0) ||
  (0x24c2 ≤ n && n ≤ 0x1f251) ||
  (0x1f900 ≤ n && n ≤ 0x1f9ff)

/-- Embeds `DraftValidator._check_no_emojis`: the emoji regex (`[class]+`) does not
match, i.e. no character of the text lies in the class. -/
def check_no_emojis (text : List Char) : Bool :=
  !(text.any isEmojiChar)

/-- The bullet characters of `DraftValidator.bullet_patterns`. -/
def isBulletChar (c : Char) : Bool :=
  c = '-' || c = '•' || c = '*' || c = '→'

/-- A bullet line starts here: `\s*[-•*→]\s+` — optional whitespace, a bullet
character, then at least one whitespace (the bullet is necessarily the first
non-whitespace character, since `\s*` can only stop at a non-whitespace). -/
def bulletAt (l : List Char) : Bool :=
  match skipWs l with
  | c :: rest =>
    isBulletChar c &&
      (match rest with
       | c' :: _ => isPySpace c'
       | [] => false)
  | [] => false

/-- Scan for a bullet start after any newline. -/
def bulletAfterNewline : List Char → Bool
  | [] => false
  | c :: rest => (c = '\n' && bulletAt rest) || bulletAfterNewline rest

/-- Embeds `DraftValidator._check_no_bullets`: neither `^\s*[-•*→]\s+` (with
`re.MULTILINE`: at the start of the text or after any newline) nor
`\n\s*[-•*→]\s+` matches the body.  The second pattern is subsumed by the
first's after-newline positions. -/
def check_no_bullets (body : List Char) : Bool :=
  !(bulletAt body || bulletAfterNewline body)

/-! ## `src/core/models.py` — records with derived fields -/

/-- Embeds `EmailDraft` (the fields consulted by the validator, plus the derived
`word_count`). -/
structure EmailDraft where
  subject : String
  body : String
  recipient_email : Option String := none
  recipient_name : Option String := none
  job_title : String := ""
  company : String := ""
  word_count : Nat := 0
deriving DecidableEq

/-- Construct an `EmailDraft`, recomputing `word_count` from the body exactly
as the pydantic `calculate_word_count` validator does. -/
def mkEmailDraft (subject body : String) (job_title : String := "")
    (company : String := "") : EmailDraft :=
  { subject := subject, body := body, job_title := job_title,
    company := company, word_count := (splitWs body.data).length }

/-- Embeds `QualityCheck`: seven booleans with the derived `score`, `issues` and
`passed` fields. -/
structure QualityCheck where
  has_metric : Bool := false
  has_project_link : Bool := false
  has_company_hook : Bool := false
  has_clear_cta : Bool := false
  under_word_limit : Bool := false
  no_emojis : Bool := false
  no_bullet_dashes : Bool := false
  score : ℚ := 0
  issues : List String := []
  passed : Bool := false
deriving DecidableEq

/-- Construct a `QualityCheck` from the seven booleans, computing the derived
fields exactly as the pydantic validators do: `score = sum(checks)/len(checks)*100`
and `passed = score >= 70.0`. -/
def mkQualityCheck (m l h c w e b : Bool) : QualityCheck :=
  let checks := [m, l, h, c, w, e, b]
  let score : ℚ := (checks.count true : ℚ) / (checks.length : ℚ) * 100
  { has_metric := m, has_project_link := l, has_company_hook := h,
    has_clear_cta := c, under_word_limit := w, no_emojis := e,
    no_bullet_dashes := b, score := score, issues := [],
    passed := decide ((70 : ℚ) ≤ score) }

/-- Embeds `DraftValidator._check_company_hook`: the lower-cased body contains the
company name, or one of the first three words of the lower-cased job title
that is longer than three characters. -/
def check_company_hook (draft : EmailDraft) : Bool :=
  let bodyLower := draft.body.data.map toLowerCh
  (!draft.company.data.isEmpty && containsSeq (draft.company.data.map toLowerCh) bodyLower) ||
  (!draft.job_title.data.isEmpty &&
    ((splitWs (draft.job_title.data.map toLowerCh)).take 3).any
      (fun w => 3 < w.length && containsSeq w bodyLower))

/-- Embeds `DraftValidator._generate_issues`. -/
def generate_issues (checks : QualityCheck) (draft : EmailDraft) : List String :=
  (if checks.has_metric then [] else
    ["❌ No concrete metrics found (e.g., '40% improvement', '10K users')"]) ++
  (if checks.has_project_link then [] else
    ["❌ No project link found (GitHub, portfolio, demo)"]) ++
  (if checks.has_company_hook then [] else
    ["❌ No specific reference to " ++ draft.company ++ " or job role"]) ++
  (if checks.has_clear_cta then [] else
    ["❌ No clear call-to-action (e.g., '10-minute call', 'quick demo')"]) ++
  (if checks.under_word_limit then [] else
    ["❌ Too long: " ++ toString (splitWs draft.body.data).length ++ " words (limit: 180)"]) ++
  (if checks.no_emojis then [] else
    ["❌ Contains emojis (remove all emojis)"]) ++
  (if checks.no_bullet_dashes then [] else
    ["❌ Contains bullet dashes (use paragraphs instead)"])

/-- Embeds `DraftValidator.validate_draft`: evaluate the seven checks on
`f"{draft.subject} {draft.body}"` (or the body alone where the source does),
build the `QualityCheck`, then fill in `issues`. -/
def validate_draft (draft : EmailDraft) : QualityCheck :=
  let full_text := draft.subject.data ++ ' ' :: draft.body.data
  let checks := mkQualityCheck
    (check_has_metric full_text)
    (check_has_link full_text)
    (check_company_hook draft)
    (check_has_cta full_text)
    (check_word_limit draft.body.data)
    (check_no_emojis full_text)
    (check_no_bullets draft.body.data)
  { checks with issues := generate_issues checks draft }

/-- The number of satisfied checks of a `QualityCheck`. -/
def qcCount (q : QualityCheck) : Nat :=
  [q.has_metric, q.has_project_link, q.has_company_hook, q.has_clear_cta,
   q.under_word_limit, q.no_emojis, q.no_bullet_dashes].count true

/-- The draft of the spec's quality scenario: the given body with
`company="Acme"`, `job_title="Senior Engineer"` (and an empty subject). -/
def c6Draft : EmailDraft :=
  mkEmailDraft ""
    "I reduced latency by 40% and increased throughput by 2x. Check github.com/me/proj. Would you have 15 minutes this week?"
    "Senior Engineer" "Acme"

/-- A draft satisfying all seven checks, used to witness the scoring theorem. -/
def c1WitnessDraft : EmailDraft :=
  mkEmailDraft "Hi"
    "I improved throughput by 3x at Acme. See https://github.com/me/proj. Free to chat this week for 10 minutes?"
    "Engineer" "Acme"

/-! ## `src/core/llm.py` — structured-response extraction

`LocalLLMClient._clean_json_response` strips known preambles and markdown
code fences, finds the first `{`, and scans forward counting brace depth to
locate the matching `}`.  Failures (`ValueError` in the source) are modelled
as `Except.error`. -/

/-- The markdown fence marker. -/
def fenceMarker : List Char := "```".data

/-- Index of the first occurrence of `sep` as a contiguous subsequence. -/
def findSeqIdx (sep : List Char) : List Char → Option Nat
  | [] => if sep.isEmpty then some 0 else none
  | c :: rest =>
    if sep.isPrefixOf (c :: rest) then some 0
    else (findSeqIdx sep rest).map (· + 1)

/-- Fuelled splitter on the fence marker (Python `response.split("```")`);
each recursive step consumes at least the three marker characters, so fuel
equal to the input length always suffices. -/
def splitFenceFuel : Nat → List Char → List (List Char)
  | 0, l => [l]
  | fuel + 1, l =>
    match findSeqIdx fenceMarker l with
    | none => [l]
    | some i => l.take i :: splitFenceFuel fuel (l.drop (i + 3))

/-- Python `response.split("```")`. -/
def splitFence (l : List Char) : List (List Char) := splitFenceFuel l.length l

/-- The known preambles stripped by `_clean_json_response`, in source order. -/
def preambles : List (List Char) :=
  ["here's the json:".data, "here is the json:".data, "json:".data, "output:".data]

/-- Strip each known preamble in turn: if the lower-cased text starts with the
preamble, drop its length from the original text and re-strip. -/
def stripPreambles (l : List Char) : List Char :=
  preambles.foldl
    (fun acc pre => if pre.isPrefixOf (acc.map toLowerCh) then pyStrip (acc.drop pre.length) else acc)
    l

/-- The markdown-fence step: if `\x60\x60\x60` occurs and splitting on it yields at
least three parts, keep part 1 (between the first two fences), dropping a
leading `json` language tag (4 characters of the stripped part) if present. -/
def stripFences (l : List Char) : List Char :=
  if containsSeq fenceMarker l then
    let parts := splitFence l
    if 3 ≤ parts.length then
      let r := parts.getD 1 []
      if "json".data.isPrefixOf ((pyStrip r).map toLowerCh) then pyStrip ((pyStrip r).drop 4)
      else r
    else l
  else l

/-- Python `response.find("{")`: index of the first opening brace. -/
def firstBraceIdx : List Char → Option Nat
  | [] => none
  | c :: rest => if c = '{' then some 0 else (firstBraceIdx rest).map (· + 1)

/-- The brace-depth scan of `_clean_json_response`: starting from depth
`depth`, walk the characters keeping a running count (`+1` on `{`, `-1` on
`}`); return the index of the first `}` at which the count returns to zero. -/
def scanClose : List Char → Int → Option Nat
  | [], _ => none
  | c :: rest, depth =>
    let depth' := if c = '{' then depth + 1 else if c = '}' then depth - 1 else depth
    if c = '}' ∧ depth' = 0 then some 0
    else (scanClose rest depth').map (· + 1)

/-- The preamble/fence preprocessing of `_clean_json_response`: initial strip,
preamble removal, then fence extraction. -/
def stripAll (l : List Char) : List Char := stripFences (stripPreambles (pyStrip l))

/-- Embeds `LocalLLMClient._clean_json_response` on character lists. -/
def clean_json_list (l : List Char) : Except String (List Char) :=
  let r := stripAll l
  match firstBraceIdx r with
  | none => .error "No JSON object found in response"
  | some i =>
    match scanClose (r.drop i) 0 with
    | none => .error "Malformed JSON: no matching closing brace"
    | some k => .ok ((r.drop i).take (k + 1))

/-- Embeds `LocalLLMClient._clean_json_response`. -/
def clean_json_response (s : String) : Except String String :=
  match clean_json_list s.data with
  | .ok l => .ok (String.mk l)
  | .error e => .error e

/-- The brace balance of a character list: occurrences of `{` minus
occurrences of `}`.  The depth of the scan after `k+1` characters is the
balance of the scanned prefix. -/
def sliceDelta (l : List Char) : Int :=
  (l.count '{' : Int) - (l.count '}' : Int)

/-! ## `src/core/llm.py` — `generate_json` retry loop

The external `generate_text` call is an oracle `gen` mapping the attempt
number and the temperature passed on that attempt to either generated text or
a raised transport/HTTP/timeout error (every such error reaches
`generate_json` as a generic `Exception`).  The standard-library `json.loads`
is an oracle `loads` returning `none` on `json.JSONDecodeError`.  The prompt
string is fixed per call, so it is not a parameter of the oracle. -/

/-- Outcome of one `generate_text` call. -/
inductive GenAttempt where
  | text (s : String)
  | fail (msg : String)

/-- Result of `generate_json`: a parsed value, a raised exception, or
Python's implicit `None` when the loop body never runs. -/
inductive JsonOutcome (J : Type) where
  | ok (v : J)
  | error (msg : String)
  | pyNone
deriving DecidableEq

/-- A `generate_json` run paired with the number of `generate_text`
invocations it performed. -/
structure JsonRun (J : Type) where
  result : JsonOutcome J
  calls : Nat
deriving DecidableEq

/-- The body of `for attempt in range(max_retries)` in `generate_json`,
with `left` iterations remaining (so the current attempt index is
`maxR - left`).  Per attempt: call the generator (a raised error propagates
immediately, wrapped once), extract with `_clean_json_response` (a
`ValueError` is not a `json.JSONDecodeError`, so it also propagates
immediately), then deserialize; on `json.JSONDecodeError` halve the
temperature and retry while `attempt < max_retries - 1`, which along the
loop's own trajectory is exactly `0 < left - 1 + 1`, i.e. the fuel test. -/
def generateJsonLoop {J : Type} (gen : Nat → ℚ → GenAttempt) (loads : String → Option J)
    (maxR : Nat) : Nat → ℚ → JsonRun J
  | 0, _ => ⟨.pyNone, 0⟩
  | left + 1, temp =>
    let attempt := maxR - (left + 1)
    match gen attempt temp with
    | .fail m => ⟨.error ("LLM JSON generation failed: " ++ m), 1⟩
    | .text s =>
      match clean_json_list s.data with
      | .error em => ⟨.error ("LLM JSON generation failed: " ++ em), 1⟩
      | .ok c =>
        match loads (String.mk c) with
        | some v => ⟨.ok v, 1⟩
        | none =>
          if 0 < left then
            let r := generateJsonLoop gen loads maxR left (temp * (1 / 2))
            ⟨r.result, r.calls + 1⟩
          else ⟨.error ("Failed to parse JSON after " ++ toString maxR ++ " attempts."), 1⟩

/-- Embeds `LocalLLMClient.generate_json` with the generator and deserializer as
oracles: run up to `maxR` attempts starting from temperature `temp`. -/
def generate_json {J : Type} (gen : Nat → ℚ → GenAttempt) (loads : String → Option J)
    (temp : ℚ) (maxR : Nat) : JsonRun J :=
  generateJsonLoop gen loads maxR maxR temp

/-- Attempt `k`, called at temperature `t`, returns text that extracts and
deserializes to `v`. -/
def attemptParses {J : Type} (gen : Nat → ℚ → GenAttempt) (loads : String → Option J)
    (k : Nat) (t : ℚ) (v : J) : Prop :=
  ∃ s c, gen k t = .text s ∧ clean_json_list s.data = .ok c ∧ loads (String.mk c) = some v

/-- Attempt `k`, called at temperature `t`, returns text that extracts but
fails to deserialize (`json.JSONDecodeError`) — the only retried failure. -/
def attemptDeserFails {J : Type} (gen : Nat → ℚ → GenAttempt) (loads : String → Option J)
    (k : Nat) (t : ℚ) : Prop :=
  ∃ s c, gen k t = .text s ∧ clean_json_list s.data = .ok c ∧ loads (String.mk c) = none

/-! ## `src/core/cv_parser.py` — CV parsing with graceful degradation

`CVParser.parse_text` calls the LLM (`generate_json`) and the pydantic
`CVProfile` validator inside a `try`; any failure of either produces a
minimal fallback profile instead of propagating.  The LLM call, the
`cv_data["raw_text"] = cv_text` dict update and the pydantic validation are
oracles over an abstract mapping type `J`. -/

/-- Embeds `Experience` (`src/core/models.py`). -/
structure Experience where
  title : String
  company : String
  duration : String
  achievements : List String := []
  metrics : List String := []
  technologies : List String := []
deriving DecidableEq

/-- Embeds `Project` (`src/core/models.py`). -/
structure Project where
  name : String
  description : String
  technologies : List String := []
  link : Option String := none
  github : Option String := none
  impact : Option String := none
deriving DecidableEq

/-- Embeds `CVProfile` (`src/core/models.py`). -/
structure CVProfile where
  name : Option String := none
  email : Option String := none
  phone : Option String := none
  linkedin : Option String := none
  github : Option String := none
  portfolio : Option String := none
  summary : Option String := none
  experiences : List Experience := []
  projects : List Project := []
  skills : List String := []
  education : List String := []
  raw_text : String := ""
deriving DecidableEq

/-- The part of `CV_PARSE_PROMPT` before the interpolated CV text. -/
def cvParsePromptPre : String :=
  "You are an expert CV analyzer. Extract structured information from the CV text below.\n"
  ++ "\n"
  ++ "CV TEXT:\n"

/-- The part of `CV_PARSE_PROMPT` after the interpolated CV text. -/
def cvParsePromptPost : String :=
  "\n"
  ++ "\n"
  ++ "Extract and return ONLY valid JSON with this exact structure:\n"
  ++ "\x7b\n"
  ++ "    \"name\": \"Full Name\",\n"
  ++ "    \"email\": \"email@example.com\",\n"
  ++ "    \"phone\": \"+1234567890\",\n"
  ++ "    \"linkedin\": \"linkedin.com/in/username\",\n"
  ++ "    \"github\": \"github.com/username\",\n"
  ++ "    \"portfolio\": \"portfolio-url.com\",\n"
  ++ "    \"summary\": \"Brief summary\",\n"
  ++ "    \"experiences\": [\n"
  ++ "        \x7b\n"
  ++ "            \"title\": \"Job Title\",\n"
  ++ "            \"company\": \"Company\",\n"
  ++ "            \"duration\": \"Dates\",\n"
  ++ "            \"achievements\": [\"Action result 1\", \"Action result 2\"],\n"
  ++ "            \"metrics\": [\"Improved X by Y%\", \"Served N users\"],\n"
  ++ "            \"technologies\": [\"Tech1\", \"Tech2\"]\n"
  ++ "        \x7d\n"
  ++ "    ],\n"
  ++ "    \"projects\": [\n"
  ++ "        \x7b\n"
  ++ "            \"name\": \"Project Name\",\n"
  ++ "            \"description\": \"One sentence description\",\n"
  ++ "            \"technologies\": [\"Tech1\"],\n"
  ++ "            \"link\": \"https://url.com\",\n"
  ++ "            \"impact\": \"Metric or scale\"\n"
  ++ "        \x7d\n"
  ++ "    ],\n"
  ++ "    \"skills\": [\"Skill1\", \"Skill2\"],\n"
  ++ "    \"education\": [\"Degree, Uni, Year\"]\n"
  ++ "\x7d\n"
  ++ "\n"
  ++ "RULES:\n"
  ++ "1. Extract ALL details.\n"
  ++ "2. Return ONLY valid JSON."

/-- Embeds `CV_PARSE_PROMPT.format(cv_text=t)`. -/
def cv_parse_prompt (t : String) : String :=
  cvParsePromptPre ++ t ++ cvParsePromptPost

/-- The truncation step of `parse_text`: keep at most 12000 characters. -/
def truncated (s : String) : String :=
  if 12000 < s.data.length then String.mk (s.data.take 12000) else s

/-- The minimal fallback profile built on a parsing failure. -/
def fallbackProfile (t e : String) : CVProfile :=
  { raw_text := t,
    summary := some ("CV parsing failed: " ++ e ++ ". Using raw text.") }

/-- Embeds `CVParser.parse_text`: reject too-short input (a raised `ValueError`,
modelled as `.error`), truncate, build the prompt, call the LLM oracle, set
`raw_text` in the returned mapping, validate; any oracle failure degrades to
the fallback profile. -/
def parse_text {J : Type} (llmGenerateJson : String → Except String J)
    (setRawText : J → String → J) (validateProfile : J → Except String CVProfile)
    (cv_text : String) : Except String CVProfile :=
  if cv_text = "" ∨ (pyStrip cv_text.data).length < 50 then
    .error "CV text is too short or empty"
  else
    let t := truncated cv_text
    match llmGenerateJson (cv_parse_prompt t) with
    | .error e => .ok (fallbackProfile t e)
    | .ok j =>
      match validateProfile (setRawText j t) with
      | .error e => .ok (fallbackProfile t e)
      | .ok p => .ok p

/-- A sufficiently long CV text used by the C7 witness. -/
def c7Text : String :=
  "Jane Doe, software engineer with ten years of backend experience in Python."

/-! ## `src/core/contact_finder.py` — heuristic contact extraction -/

/-- Embeds `ContactCandidate` (`src/core/models.py`). -/
structure ContactCandidate where
  name : String
  role : Option String := none
  email : Option String := none
  email_confidence : String := "unknown"
  linkedin : Option String := none
  source : String := ""
  confidence_score : ℚ := 0
deriving DecidableEq

/-- One search-result record (`title`, `body`, `href`, with `dict.get`
defaults of the empty string). -/
structure SearchResult where
  title : String := ""
  body : String := ""
  href : String := ""

/-- Embeds `name.lower().strip()` on a name or domain token. -/
def normToken (s : String) : List Char := pyStrip (s.data.map toLowerCh)

/-- The domain normalisation of `generate_email_permutations`: lower-case,
strip, and if an `@` is present keep `split("@")[1]` (the element exists
whenever `@` occurs, so the default is never taken). -/
def normDomain (s : String) : List Char :=
  let d := normToken s
  if d.contains '@' then (splitOnChar '@' d).getD 1 [] else d

/-- Embeds `ContactFinder.generate_email_permutations`.  Python builds all five
pattern strings eagerly, so an empty normalised first name raises
`IndexError` on `first[0]` — modelled as `none`. -/
def generate_email_permutations (first_name last_name domain : String) :
    Option (List ContactCandidate) :=
  let first := normToken first_name
  let last := normToken last_name
  let dmn := normDomain domain
  match first with
  | [] => none
  | f0 :: _ =>
    let patterns : List (List Char) :=
      [first ++ '.' :: last ++ '@' :: dmn,
       first ++ '@' :: dmn,
       first ++ last ++ '@' :: dmn,
       f0 :: last ++ '@' :: dmn,
       first ++ '_' :: last ++ '@' :: dmn]
    some ((patterns.take 3).enum.map fun ie =>
      { name := first_name ++ " " ++ last_name,
        email := some (String.mk ie.2),
        email_confidence := "guessed",
        source := "email_permutation",
        confidence_score := (7 : ℚ) / 10 - (ie.1 : ℚ) * (1 / 10) })

/-- The company-mention signal of `_calculate_confidence`:
`company.lower() in snippet.lower()`. -/
def companyInSnippet (company snippet : String) : Bool :=
  containsSeq (company.data.map toLowerCh) (snippet.data.map toLowerCh)

/-- Embeds `ContactFinder._calculate_confidence`: base 0.3, +0.4 for an email,
+0.2 for a LinkedIn URL, +0.1 for a company mention, clamped to 1.0
(Python truthiness: `None` and the empty string do not count). -/
def calculate_confidence (email linkedin : Option String)
    (company snippet : String) : ℚ :=
  let s1 : ℚ := 3 / 10
  let s2 := if pyTruthy email then s1 + 4 / 10 else s1
  let s3 := if pyTruthy linkedin then s2 + 2 / 10 else s2
  let s4 := if companyInSnippet company snippet then s3 + 1 / 10 else s3
  min s4 1

/-! ### The email regex of `_extract_email`

`r"\b[A-Za-z0-9._%+-]+@[A-Za-z0-9.-]+\.[A-Z|a-z]\x7b2,\x7d\b"`, embedded as a
left-to-right first-match scan with greedy sub-matches and word-boundary
checks at both ends. -/

/-- A regex word character (`\w`), for `\b` boundaries. -/
def isWordChar (c : Char) : Bool := c.isAlpha || c.isDigit || c = '_'

/-- The local-part class `[A-Za-z0-9._%+-]`. -/
def isLocalChar (c : Char) : Bool :=
  c.isAlpha || c.isDigit || c = '.' || c = '_' || c = '%' || c = '+' || c = '-'

/-- The domain class `[A-Za-z0-9.-]`. -/
def isDomainChar (c : Char) : Bool :=
  c.isAlpha || c.isDigit || c = '.' || c = '-'

/-- The TLD class `[A-Z|a-z]` (the `|` is a literal class member). -/
def emailTldChar (c : Char) : Bool := c.isAlpha || c = '|'

/-- Whether the domain run can end a match at offset `k`: the `k`-prefix
ends in `.` followed by at least two TLD characters, with at least one
domain character before that dot, and the next character (inside the run or
after it) is not a word character (`\b`). -/
def tldOkAt (dom : List Char) (k : Nat) (nextC : Option Char) : Bool :=
  let pre := dom.take k
  let run := pre.reverse.takeWhile emailTldChar
  2 ≤ run.length && (pre.reverse.drop run.length).head? = some '.' &&
  run.length + 1 < pre.length &&
  (match nextC with | none => true | some c => !isWordChar c)

/-- The largest admissible match end within the greedy domain run (regex
backtracking tries the longest first). -/
def findEndK (dom : List Char) (afterC : Option Char) : Option Nat :=
  ((List.range (dom.length + 1)).reverse).find?
    (fun k => tldOkAt dom k (if k < dom.length then dom[k]? else afterC))

/-- Try to match the email regex at the current position (`prevIsWord` is
whether the preceding character is a word character, for the leading `\b`). -/
def emailAt (prevIsWord : Bool) (l : List Char) : Option (List Char) :=
  match l with
  | [] => none
  | c :: _ =>
    if prevIsWord = isWordChar c then none
    else
      let localPart := l.takeWhile isLocalChar
      if localPart.isEmpty then none
      else
        match l.drop localPart.length with
        | '@' :: rest2 =>
          let dom := rest2.takeWhile isDomainChar
          let afterC := (rest2.drop dom.length).head?
          match findEndK dom afterC with
          | some k => some (localPart ++ '@' :: dom.take k)
          | none => none
        | _ => none

/-- Left-to-right scan for the first email match (`re.findall(...)[0]`). -/
def findEmailAux : Bool → List Char → Option (List Char)
  | _, [] => none
  | prevW, c :: rest =>
    match emailAt prevW (c :: rest) with
    | some m => some m
    | none => findEmailAux (isWordChar c) rest

/-- Embeds `ContactFinder._extract_email`: the first match of the email regex, or
`None`. -/
def extract_email (text : String) : Option String :=
  (findEmailAux false text.data).map String.mk

/-- The first character exists and is upper-case (`word[0].isupper()`). -/
def headIsUpper : List Char → Bool
  | c :: _ => c.isUpper
  | [] => false

/-- Embeds `ContactFinder._extract_name_from_title`: the LinkedIn
`"Name - Position | Site"` pattern when `|` and `LinkedIn` occur and the
part before `|` contains a `-`; otherwise the first two title words when
both are capitalised; otherwise `None`. -/
def extract_name_from_title (title : String) : Option String :=
  let t := title.data
  let general : Option String :=
    match splitWs t with
    | w0 :: w1 :: _ =>
      if headIsUpper w0 && headIsUpper w1 then some (String.mk (w0 ++ ' ' :: w1)) else none
    | _ => none
  if t.contains '|' && containsSeq "LinkedIn".data t then
    let part0 := pyStrip ((splitOnChar '|' t).headD [])
    if part0.contains '-' then some (String.mk (pyStrip ((splitOnChar '-' part0).headD [])))
    else general
  else general

/-- The fixed role keywords of `_extract_role`, in source order. -/
def roleKeywords : List String :=
  ["Manager", "Director", "Lead", "Engineer", "Recruiter",
   "VP", "Head", "Chief", "Senior", "Principal"]

/-- Embeds `" ".join(words)`. -/
def joinSpace : List (List Char) → List Char
  | [] => []
  | w :: rest => rest.foldl (fun acc x => acc ++ ' ' :: x) w

/-- Find the first title word at index `i > 0` containing the keyword and
return `" ".join(words[i-1 : i+2])`. -/
def roleFromWordsAux (kw : List Char) (allW : List (List Char)) :
    Nat → List (List Char) → Option (List Char)
  | _, [] => none
  | i, w :: rest =>
    if 0 < i && containsSeq kw w then some (joinSpace ((allW.drop (i - 1)).take 3))
    else roleFromWordsAux kw allW (i + 1) rest

/-- Embeds `ContactFinder._extract_role`: for the first keyword occurring in
`title + " " + snippet`, the 2–3-word phrase around its title occurrence;
`"Unknown Role"` when no keyword yields a phrase. -/
def extract_role (title snippet : String) : Option String :=
  let combined := title.data ++ ' ' :: snippet.data
  let words := splitWs title.data
  match roleKeywords.findSome? (fun kw =>
      if containsSeq kw.data combined then (roleFromWordsAux kw.data words 0 words).map String.mk
      else none) with
  | some r => some r
  | none => some "Unknown Role"

/-- Embeds `ContactFinder._extract_contact_from_result`: extract a name (skipping
the result when none is found), an email from `title + " " + snippet`, a
role, a LinkedIn URL, and the additive confidence score. -/
def extract_contact_from_result (result : SearchResult) (company_name : String) :
    Option ContactCandidate :=
  let title := result.title
  let snippet := result.body
  let url := result.href
  match extract_name_from_title title with
  | none => none
  | some nme =>
    if nme = "" then none
    else
      let email := extract_email (title ++ " " ++ snippet)
      let linkedin := if containsSeq "linkedin.com".data url.data then some url else none
      some { name := nme,
             role := extract_role title snippet,
             email := email,
             email_confidence := if pyTruthy email then "confirmed" else "unknown",
             linkedin := linkedin,
             source := url,
             confidence_score := calculate_confidence email linkedin company_name snippet }

/-- The search result used by the C10 witness. -/
def c10Result : SearchResult :=
  { title := "Jane Doe - Recruiter | LinkedIn",
    body := "Contact jane@acme.com today",
    href := "https://linkedin.com/in/janedoe" }

/-- The contact extracted from `c10Result` for company `Acme`. -/
def c10Contact : ContactCandidate :=
  { name := "Jane Doe",
    role := some "- Recruiter |",
    email := some "jane@acme.com",
    email_confidence := "confirmed",
    linkedin := some "https://linkedin.com/in/janedoe",
    source := "https://linkedin.com/in/janedoe",
    confidence_score := 1 }

/-- The contribution of one character to the brace balance. -/
def braceStep (c : Char) : Int :=
  if c = '{' then 1 else if c = '}' then -1 else 0

/-- A generator oracle that always returns an extractable but non-JSON text. -/
def constGenBad : Nat → ℚ → GenAttempt := fun _ _ => .text "\x7bbad\x7d"

/-- A deserializer oracle that always raises `json.JSONDecodeError`. -/
def noneLoads : String → Option Nat := fun _ => none

/-- A generator oracle whose first attempt yields non-JSON text and whose
later attempts raise a transport error. -/
def genTransportSecond : Nat → ℚ → GenAttempt :=
  fun k _ => if k = 0 then .text "\x7bbad\x7d" else .fail "boom"

/-! ## Score arithmetic for `QualityCheck` -/

/-- The pass threshold in terms of the raw check count: `70 ≤ n/7*100` exactly
when at least five of the seven checks hold. -/
lemma score_ge_iff (n : ℕ) : (70 : ℚ) ≤ (n : ℚ) / 7 * 100 ↔ 5 ≤ n := by
  rw [div_mul_eq_mul_div, le_div_iff₀ (by norm_num : (0:ℚ) < 7)]
  constructor
  · intro h
    by_contra hn
    push_neg at hn
    interval_cases n <;> norm_num at h
  · intro h
    have h' : (5 : ℚ) ≤ (n : ℚ) := by exact_mod_cast h
    nlinarith

/-- The derived score of `mkQualityCheck` is the true-count over seven,
times one hundred. -/
lemma mk_qc_score (m l h c w e b : Bool) :
    (mkQualityCheck m l h c w e b).score = (([m,l,h,c,w,e,b].count true : ℕ) : ℚ) / 7 * 100 := by
  simp [mkQualityCheck]

/-- The derived `passed` flag of `mkQualityCheck` holds exactly when at least
five checks are true. -/
lemma mk_qc_passed (m l h c w e b : Bool) :
    (mkQualityCheck m l h c w e b).passed = true ↔ 5 ≤ [m,l,h,c,w,e,b].count true := by
  have hs := mk_qc_score m l h c w e b
  simp only [mkQualityCheck] at hs ⊢
  rw [decide_eq_true_eq, hs]
  exact score_ge_iff _

/-- Joint specification of the derived fields of `validate_draft`. -/
lemma validate_qc_spec (d : EmailDraft) :
    (validate_draft d).score = (qcCount (validate_draft d) : ℚ) / 7 * 100 ∧
    ((validate_draft d).passed = true ↔ (70 : ℚ) ≤ (validate_draft d).score) ∧
    (5 ≤ qcCount (validate_draft d) → (validate_draft d).passed = true) ∧
    (qcCount (validate_draft d) ≤ 4 → (validate_draft d).passed = false) := by
  have hscore : (validate_draft d).score = (qcCount (validate_draft d) : ℚ) / 7 * 100 :=
    mk_qc_score _ _ _ _ _ _ _
  have hpassed : (validate_draft d).passed = true ↔ 5 ≤ qcCount (validate_draft d) :=
    mk_qc_passed _ _ _ _ _ _ _
  refine ⟨hscore, ?_, ?_, ?_⟩
  · rw [hpassed, hscore, score_ge_iff]
  · intro h5; exact hpassed.mpr h5
  · intro h4
    rcases Bool.eq_false_or_eq_true (validate_draft d).passed with ht | hf
    · exact absurd (hpassed.mp ht) (by omega)
    · exact hf

/-! ## Claim C1 — score and pass threshold of `validate_draft` -/

/-- C1: for every email draft, `validate_draft` returns a `QualityCheck` whose
score is (number of true checks among the seven) / 7 × 100 and whose `passed`
flag is true exactly when the score is at least 70; consequently a draft with
at least 5 true checks passes and one with at most 4 does not. -/
theorem validate_draft_score_passed (d : EmailDraft) :
    (validate_draft d).score = (qcCount (validate_draft d) : ℚ) / 7 * 100 ∧
    ((validate_draft d).passed = true ↔ (70 : ℚ) ≤ (validate_draft d).score) ∧
    (5 ≤ qcCount (validate_draft d) → (validate_draft d).passed = true) ∧
    (qcCount (validate_draft d) ≤ 4 → (validate_draft d).passed = false) :=
  validate_qc_spec d

/-- Witness for C1 at a concrete draft satisfying all seven checks. -/
theorem validate_draft_score_passed_witness :
    5 ≤ qcCount (validate_draft c1WitnessDraft) ∧
    (validate_draft c1WitnessDraft).passed = true :=
  ⟨by decide, (validate_draft_score_passed c1WitnessDraft).2.2.1 (by decide)⟩

/-! ## Claim C6 — the spec's quality scenario, re-evaluated on the code -/

/-- C6 (counterexample): on the spec's scenario draft the code does *not*
return all seven checks true with score 100: the project-link check fails
(`github.com/me/proj` has no `http(s)://` scheme, which `url_pattern`
requires), the company-hook check fails (neither `acme` nor a long word of
`senior engineer` occurs in the body), and the score is not 100. -/
theorem quality_scenario_counterexample :
    (validate_draft c6Draft).has_project_link = false ∧
    (validate_draft c6Draft).has_company_hook = false ∧
    (validate_draft c6Draft).score ≠ 100 := by
  have h5 : qcCount (validate_draft c6Draft) = 5 := by decide
  obtain ⟨hs, -, -, -⟩ := validate_qc_spec c6Draft
  refine ⟨by decide, by decide, ?_⟩
  rw [hs, h5]
  norm_num

/-- C6 (amended): on the scenario draft exactly five of the seven checks are
true (`has_project_link` and `has_company_hook` are false), the score is
500/7 ≈ 71.43, and the draft still passes. -/
theorem quality_scenario_actual :
    (validate_draft c6Draft).has_metric = true ∧
    (validate_draft c6Draft).has_project_link = false ∧
    (validate_draft c6Draft).has_company_hook = false ∧
    (validate_draft c6Draft).has_clear_cta = true ∧
    (validate_draft c6Draft).under_word_limit = true ∧
    (validate_draft c6Draft).no_emojis = true ∧
    (validate_draft c6Draft).no_bullet_dashes = true ∧
    (validate_draft c6Draft).score = 500 / 7 ∧
    (validate_draft c6Draft).passed = true := by
  have h5 : qcCount (validate_draft c6Draft) = 5 := by decide
  obtain ⟨hs, -, hp, -⟩ := validate_qc_spec c6Draft
  refine ⟨by decide, by decide, by decide, by decide, by decide, by decide, by decide, ?_, ?_⟩
  · rw [hs, h5]
    norm_num
  · exact hp (by omega)

/-! ## Brace-scan lemmas for `_clean_json_response` -/

lemma sliceDelta_nil : sliceDelta [] = 0 := by simp [sliceDelta]

lemma sliceDelta_cons (c : Char) (l : List Char) :
    sliceDelta (c :: l) = braceStep c + sliceDelta l := by
  by_cases h1 : c = '{' <;> by_cases h2 : c = '}' <;>
    simp_all [sliceDelta, braceStep, List.count_cons] <;> omega

lemma braceStep_cases (c : Char) :
    braceStep c = 1 ∨ braceStep c = -1 ∨ braceStep c = 0 := by
  unfold braceStep
  split_ifs <;> simp

/-- Completeness of the scan: if the balance of the prefix of length `k+1`
returns the depth to zero and no shorter prefix does, the scan finds `k`. -/
lemma scanClose_eq_some (l : List Char) : ∀ (d : Int) (k : Nat), 1 ≤ d →
    d + sliceDelta (l.take (k + 1)) = 0 →
    (∀ m < k, d + sliceDelta (l.take (m + 1)) ≠ 0) →
    scanClose l d = some k := by
  induction l with
  | nil =>
    intro d k hd h0 _
    simp [sliceDelta_nil] at h0
    omega
  | cons c rest ih =>
    intro d k hd h0 hlt
    have hstep := braceStep_cases c
    match k with
    | 0 =>
      rw [List.take_succ_cons, List.take_zero, sliceDelta_cons, sliceDelta_nil] at h0
      have hc : c = '}' := by
        by_contra hne
        have h1 : c = '{' ∨ ¬ c = '{' := em _
        rcases h1 with h1 | h1 <;> simp [braceStep, h1, hne] at h0 <;> omega
      subst hc
      have hdep : d - 1 = 0 := by
        simp only [braceStep] at h0
        simp at h0
        omega
      simp [scanClose, hdep]
    | k' + 1 =>
      have hd0 : d + braceStep c ≠ 0 := by
        have := hlt 0 (by omega)
        rwa [List.take_succ_cons, List.take_zero, sliceDelta_cons, sliceDelta_nil,
          add_zero] at this
      have hd1 : 1 ≤ d + braceStep c := by omega
      simp only [scanClose]
      have hcond : ¬ (c = '}' ∧ (if c = '{' then d + 1 else if c = '}' then d - 1 else d) = 0) := by
        rintro ⟨hc, habs⟩
        subst hc
        simp only [braceStep] at hd0
        simp at hd0 habs
        omega
      rw [if_neg hcond]
      have hrec : scanClose rest (if c = '{' then d + 1 else if c = '}' then d - 1 else d) = some k' := by
        have hshape : (if c = '{' then d + 1 else if c = '}' then d - 1 else d) = d + braceStep c := by
          simp only [braceStep]
          split_ifs <;> omega
        rw [hshape]
        apply ih _ _ hd1
        · rw [List.take_succ_cons, sliceDelta_cons] at h0
          omega
        · intro m hm
          have := hlt (m + 1) (by omega)
          rw [List.take_succ_cons, sliceDelta_cons] at this
          omega
      rw [hrec]
      rfl

/-- If the depth never returns to zero along the whole list, the scan fails. -/
lemma scanClose_eq_none (l : List Char) : ∀ d : Int, 1 ≤ d →
    (∀ m < l.length, d + sliceDelta (l.take (m + 1)) ≠ 0) →
    scanClose l d = none := by
  induction l with
  | nil => intro d _ _; rfl
  | cons c rest ih =>
    intro d hd hlt
    have hd0 : d + braceStep c ≠ 0 := by
      have := hlt 0 (by simp)
      rwa [List.take_succ_cons, List.take_zero, sliceDelta_cons, sliceDelta_nil,
        add_zero] at this
    have hd1 : 1 ≤ d + braceStep c := by
      have := braceStep_cases c
      omega
    simp only [scanClose]
    have hcond : ¬ (c = '}' ∧ (if c = '{' then d + 1 else if c = '}' then d - 1 else d) = 0) := by
      rintro ⟨hc, habs⟩
      subst hc
      simp only [braceStep] at hd0
      simp at hd0 habs
      omega
    rw [if_neg hcond]
    have hshape : (if c = '{' then d + 1 else if c = '}' then d - 1 else d) = d + braceStep c := by
      simp only [braceStep]
      split_ifs <;> omega
    rw [hshape, ih _ hd1]
    · rfl
    · intro m hm
      have := hlt (m + 1) (by simp; omega)
      rw [List.take_succ_cons, sliceDelta_cons] at this
      omega

/-- Soundness of the scan: a found index balances the scanned prefix. -/
lemma scanClose_sound (l : List Char) : ∀ (d : Int) (k : Nat),
    scanClose l d = some k → d + sliceDelta (l.take (k + 1)) = 0 := by
  induction l with
  | nil => intro d k h; simp [scanClose] at h
  | cons c rest ih =>
    intro d k h
    simp only [scanClose] at h
    by_cases hcond : c = '}' ∧ (if c = '{' then d + 1 else if c = '}' then d - 1 else d) = 0
    · rw [if_pos hcond] at h
      obtain ⟨hc, hdep⟩ := hcond
      subst hc
      injection h with h
      subst h
      rw [List.take_succ_cons, List.take_zero, sliceDelta_cons, sliceDelta_nil, add_zero]
      simp only [braceStep]
      simp at hdep ⊢
      omega
    · rw [if_neg hcond] at h
      match hrec : scanClose rest (if c = '{' then d + 1 else if c = '}' then d - 1 else d) with
      | none => rw [hrec] at h; simp at h
      | some k' =>
        rw [hrec] at h
        simp at h
        subst h
        have := ih _ _ hrec
        rw [List.take_succ_cons, sliceDelta_cons]
        have hshape : (if c = '{' then d + 1 else if c = '}' then d - 1 else d) = d + braceStep c := by
          simp only [braceStep]
          split_ifs <;> omega
        rw [hshape] at this
        omega

/-- The scan `firstBraceIdx` agrees with the positional description of "the first `{`". -/
lemma firstBraceIdx_of_spec (l : List Char) : ∀ i : Nat, l[i]? = some '{' →
    (∀ j < i, l[j]? ≠ some '{') → firstBraceIdx l = some i := by
  induction l with
  | nil => intro i h _; simp at h
  | cons c rest ih =>
    intro i h hfirst
    match i with
    | 0 =>
      simp at h
      simp [firstBraceIdx, h]
    | i' + 1 =>
      have hc : c ≠ '{' := by
        intro hc
        exact hfirst 0 (by omega) (by simp [hc])
      simp only [firstBraceIdx, if_neg hc]
      rw [ih i' (by simpa using h) (fun j hj => by simpa using hfirst (j + 1) (by omega))]
      rfl

/-- If `{` does not occur, `firstBraceIdx` finds nothing. -/
lemma firstBraceIdx_none (l : List Char) : '{' ∉ l → firstBraceIdx l = none := by
  induction l with
  | nil => intro _; rfl
  | cons c rest ih =>
    intro h
    simp only [List.mem_cons, not_or] at h
    have hc : c ≠ '{' := fun hc => h.1 hc.symm
    simp [firstBraceIdx, hc, ih h.2]

/-- Unfolding the scan at an opening brace. -/
lemma scanClose_cons_open (t : List Char) (d : Int) :
    scanClose ('{' :: t) d = (scanClose t (d + 1)).map (· + 1) := by
  simp [scanClose]

/-! ## Claims C2 and C3 — structured-response extraction -/

/-- C2: for every input whose stripped text has its first `{` at position `i`
and whose brace balance over the span `[i, i+n]` first returns to zero at its
end, `_clean_json_response` returns exactly that span — the substring from the
first `{` to its matching `}` inclusive, as determined by brace-depth
counting. -/
theorem clean_json_extracts_balanced_span (s : String) (i n : Nat)
    (hbrace : (stripAll s.data)[i]? = some '{')
    (hfirst : ∀ j < i, (stripAll s.data)[j]? ≠ some '{')
    (hbal : sliceDelta (((stripAll s.data).drop i).take (n + 1)) = 0)
    (hleast : ∀ m < n, sliceDelta (((stripAll s.data).drop i).take (m + 1)) ≠ 0) :
    clean_json_response s = .ok (String.mk (((stripAll s.data).drop i).take (n + 1))) := by
  have hidx : firstBraceIdx (stripAll s.data) = some i :=
    firstBraceIdx_of_spec _ i hbrace hfirst
  obtain ⟨hlen, hget⟩ := List.getElem?_eq_some.mp hbrace
  have hdrop : (stripAll s.data).drop i = '{' :: (stripAll s.data).drop (i + 1) := by
    rw [List.drop_eq_getElem_cons hlen, hget]
  match n with
  | 0 =>
    rw [hdrop, List.take_succ_cons, List.take_zero, sliceDelta_cons, sliceDelta_nil] at hbal
    simp [braceStep] at hbal
  | m + 1 =>
    have hscan : scanClose ((stripAll s.data).drop i) 0 = some (m + 1) := by
      have h1 : scanClose ((stripAll s.data).drop (i + 1)) (0 + 1) = some m := by
        apply scanClose_eq_some _ _ _ (by omega)
        · rw [hdrop, List.take_succ_cons, sliceDelta_cons] at hbal
          simp [braceStep] at hbal
          omega
        · intro j hj
          have := hleast (j + 1) (by omega)
          rw [hdrop, List.take_succ_cons, sliceDelta_cons] at this
          simp [braceStep] at this
          omega
      rw [hdrop, scanClose_cons_open, h1]
      rfl
    simp only [clean_json_response, clean_json_list]
    simp only [hidx, hscan]

/-- C3: extraction fails with the "no object" error when the stripped text
contains no `{`; it fails with the "no matching closing brace" error when the
depth starting at the first `{` never returns to zero; and a successful
extraction is never unbalanced.  (The embedding is a total function, so the
scan always terminates.) -/
theorem clean_json_error_cases (s : String) :
    ('{' ∉ stripAll s.data →
      clean_json_response s = .error "No JSON object found in response") ∧
    (∀ i : Nat, (stripAll s.data)[i]? = some '{' →
      (∀ j < i, (stripAll s.data)[j]? ≠ some '{') →
      (∀ m < (stripAll s.data).length - i,
        sliceDelta (((stripAll s.data).drop i).take (m + 1)) ≠ 0) →
      clean_json_response s = .error "Malformed JSON: no matching closing brace") ∧
    (∀ r : String, clean_json_response s = .ok r → sliceDelta r.data = 0) := by
  refine ⟨?_, ?_, ?_⟩
  · intro hnone
    simp only [clean_json_response, clean_json_list]
    rw [firstBraceIdx_none _ hnone]
  · intro i hbrace hfirst hnever
    have hidx : firstBraceIdx (stripAll s.data) = some i :=
      firstBraceIdx_of_spec _ i hbrace hfirst
    obtain ⟨hlen, hget⟩ := List.getElem?_eq_some.mp hbrace
    have hdrop : (stripAll s.data).drop i = '{' :: (stripAll s.data).drop (i + 1) := by
      rw [List.drop_eq_getElem_cons hlen, hget]
    have hscan : scanClose ((stripAll s.data).drop i) 0 = none := by
      have h1 : scanClose ((stripAll s.data).drop (i + 1)) (0 + 1) = none := by
        apply scanClose_eq_none _ _ (by omega)
        intro m hm
        have hmlt : m + 1 < (stripAll s.data).length - i := by
          rw [List.length_drop] at hm
          omega
        have := hnever (m + 1) hmlt
        rw [hdrop, List.take_succ_cons, sliceDelta_cons] at this
        simp [braceStep] at this
        omega
      rw [hdrop, scanClose_cons_open, h1]
      rfl
    simp only [clean_json_response, clean_json_list]
    simp only [hidx, hscan]
  · intro r hr
    simp only [clean_json_response, clean_json_list] at hr
    match hidx : firstBraceIdx (stripAll s.data) with
    | none => simp only [hidx] at hr; exact absurd hr (by simp)
    | some i =>
      simp only [hidx] at hr
      match hscan : scanClose ((stripAll s.data).drop i) 0 with
      | none => simp only [hscan] at hr; exact absurd hr (by simp)
      | some k =>
        simp only [hscan] at hr
        simp only [Except.ok.injEq] at hr
        have hsound := scanClose_sound _ _ _ hscan
        rw [← hr]
        simpa using hsound

/-- Witness for C2: a concrete response with preamble, nested object and
trailing prose extracts to exactly the balanced span. -/
theorem clean_json_extracts_balanced_span_witness :
    clean_json_response "here is the json: \x7b\"a\": \x7b\"b\": 1\x7d\x7d trailing" =
      .ok "\x7b\"a\": \x7b\"b\": 1\x7d\x7d" :=
  clean_json_extracts_balanced_span
    "here is the json: \x7b\"a\": \x7b\"b\": 1\x7d\x7d trailing" 0 14
    (by decide) (by decide) (by decide) (by decide)

/-- Witness for C3: a brace-free response and an unclosed-brace response both
fail with the respective extraction errors. -/
theorem clean_json_error_cases_witness :
    clean_json_response "hello world" = .error "No JSON object found in response" ∧
    clean_json_response "\x7b unclosed" = .error "Malformed JSON: no matching closing brace" :=
  ⟨(clean_json_error_cases "hello world").1 (by decide),
   (clean_json_error_cases "\x7b unclosed").2.1 0 (by decide)
     (by intro j hj; omega) (by decide)⟩

/-! ## Claims C4 and C5 — `generate_json` retry behaviour -/

section GenerateJson

variable {J : Type} (gen : Nat → ℚ → GenAttempt) (loads : String → Option J) (maxR : Nat)

/-- The loop performs at most one generator call per remaining iteration. -/
lemma generateJsonLoop_calls_le : ∀ (left : Nat) (temp : ℚ),
    (generateJsonLoop gen loads maxR left temp).calls ≤ left := by
  intro left
  induction left with
  | zero => intro temp; simp [generateJsonLoop]
  | succ n ih =>
    intro temp
    simp only [generateJsonLoop]
    cases hg : gen (maxR - (n + 1)) temp with
    | fail m => simp [hg]
    | text s =>
      cases hc : clean_json_list s.data with
      | error em => simp [hg, hc]
      | ok c =>
        cases hl : loads (String.mk c) with
        | some v => simp [hg, hc, hl]
        | none =>
          by_cases h0 : 0 < n
          · simp only [hg, hc, hl, h0, if_true]
            have := ih (temp * (1 / 2))
            omega
          · simp [hg, hc, hl, h0]

/-- Success characterization of the loop: an `ok v` outcome comes from the
first attempt that extracts and deserializes, every earlier attempt having
failed deserialization, with the temperature halved before each retry. -/
lemma generateJsonLoop_ok : ∀ (left : Nat) (temp : ℚ) (v : J), left ≤ maxR →
    (generateJsonLoop gen loads maxR left temp).result = .ok v →
    ∃ d < left, attemptParses gen loads (maxR - left + d) (temp * (1 / 2) ^ d) v ∧
      ∀ j < d, attemptDeserFails gen loads (maxR - left + j) (temp * (1 / 2) ^ j) := by
  intro left
  induction left with
  | zero => intro temp v _ h; simp [generateJsonLoop] at h
  | succ n ih =>
    intro temp v hle h
    simp only [generateJsonLoop] at h
    cases hg : gen (maxR - (n + 1)) temp with
    | fail m => simp [hg] at h
    | text s =>
      simp only [hg] at h
      cases hc : clean_json_list s.data with
      | error em => simp [hc] at h
      | ok c =>
        simp only [hc] at h
        cases hl : loads (String.mk c) with
        | some w =>
          simp only [hl] at h
          simp at h
          refine ⟨0, by omega, ?_, fun j hj => absurd hj (by omega)⟩
          rw [pow_zero, mul_one, Nat.add_zero]
          exact ⟨s, c, hg, hc, by rw [hl, h]⟩
        | none =>
          simp only [hl] at h
          by_cases h0 : 0 < n
          · simp only [h0, if_true] at h
            obtain ⟨d', hd', hp, hf⟩ := ih (temp * (1 / 2)) v (by omega) h
            refine ⟨d' + 1, by omega, ?_, ?_⟩
            · have hidx : maxR - n + d' = maxR - (n + 1) + (d' + 1) := by omega
              have htemp : temp * (1 / 2) * (1 / 2) ^ d' = temp * (1 / 2) ^ (d' + 1) := by
                rw [pow_succ]
                ring
              rw [hidx, htemp] at hp
              exact hp
            · intro j hj
              match j with
              | 0 =>
                rw [pow_zero, mul_one, Nat.add_zero]
                exact ⟨s, c, hg, hc, hl⟩
              | j' + 1 =>
                have := hf j' (by omega)
                have hidx : maxR - n + j' = maxR - (n + 1) + (j' + 1) := by omega
                have htemp : temp * (1 / 2) * (1 / 2) ^ j' = temp * (1 / 2) ^ (j' + 1) := by
                  rw [pow_succ]
                  ring
                rwa [hidx, htemp] at this
          · simp [h0] at h

/-- Exhaustion: if every remaining attempt deserialize-fails, the loop raises
the final parse-failure error. -/
lemma generateJsonLoop_exhaust : ∀ (left : Nat) (temp : ℚ), 1 ≤ left → left ≤ maxR →
    (∀ d < left, attemptDeserFails gen loads (maxR - left + d) (temp * (1 / 2) ^ d)) →
    (generateJsonLoop gen loads maxR left temp).result =
      .error ("Failed to parse JSON after " ++ toString maxR ++ " attempts.") := by
  intro left
  induction left with
  | zero => intro temp h; omega
  | succ n ih =>
    intro temp _ hle hall
    obtain ⟨s, c, hg, hc, hl⟩ := hall 0 (by omega)
    rw [pow_zero, mul_one, Nat.add_zero] at hg
    simp only [generateJsonLoop]
    simp only [hg, hc, hl]
    by_cases h0 : 0 < n
    · simp only [h0, if_true]
      apply ih (temp * (1 / 2)) (by omega) (by omega)
      intro d hd
      have := hall (d + 1) (by omega)
      have hidx : maxR - n + d = maxR - (n + 1) + (d + 1) := by omega
      have htemp : temp * (1 / 2) * (1 / 2) ^ d = temp * (1 / 2) ^ (d + 1) := by
        rw [pow_succ]
        ring
      rw [hidx, htemp]
      exact this
    · simp [h0]

/-- Transport propagation: a generator failure on attempt `k` (after `k`
deserialize-failures) stops the loop immediately with `k + 1` calls. -/
lemma generateJsonLoop_transport : ∀ (left : Nat) (temp : ℚ) (k : Nat) (m : String),
    k < left → left ≤ maxR →
    (∀ j < k, attemptDeserFails gen loads (maxR - left + j) (temp * (1 / 2) ^ j)) →
    gen (maxR - left + k) (temp * (1 / 2) ^ k) = .fail m →
    (generateJsonLoop gen loads maxR left temp).result =
        .error ("LLM JSON generation failed: " ++ m) ∧
      (generateJsonLoop gen loads maxR left temp).calls = k + 1 := by
  intro left
  induction left with
  | zero => intro temp k m h; omega
  | succ n ih =>
    intro temp k m hk hle hpre hfail
    match k with
    | 0 =>
      rw [pow_zero, mul_one, Nat.add_zero] at hfail
      simp only [generateJsonLoop]
      simp [hfail]
    | k' + 1 =>
      obtain ⟨s, c, hg, hc, hl⟩ := hpre 0 (by omega)
      rw [pow_zero, mul_one, Nat.add_zero] at hg
      have h0 : 0 < n := by omega
      simp only [generateJsonLoop]
      simp only [hg, hc, hl]
      simp only [h0, if_true]
      have hidx : ∀ j : Nat, maxR - n + j = maxR - (n + 1) + (j + 1) := by omega
      have htemp : ∀ j : Nat, temp * (1 / 2) * (1 / 2) ^ j = temp * (1 / 2) ^ (j + 1) := by
        intro j
        rw [pow_succ]
        ring
      obtain ⟨hr, hcalls⟩ := ih (temp * (1 / 2)) k' m (by omega) (by omega)
        (fun j hj => by rw [hidx j, htemp j]; exact hpre (j + 1) (by omega))
        (by rw [hidx k', htemp k']; exact hfail)
      exact ⟨hr, by simpa using hcalls⟩

/-- Every non-final generator call of a run was followed by a retry, and the
loop retries only after a deserialize failure. -/
lemma generateJsonLoop_retry_only : ∀ (left : Nat) (temp : ℚ) (j : Nat), left ≤ maxR →
    j + 1 < (generateJsonLoop gen loads maxR left temp).calls →
    attemptDeserFails gen loads (maxR - left + j) (temp * (1 / 2) ^ j) := by
  intro left
  induction left with
  | zero => intro temp j _ h; simp [generateJsonLoop] at h
  | succ n ih =>
    intro temp j hle h
    simp only [generateJsonLoop] at h
    cases hg : gen (maxR - (n + 1)) temp with
    | fail m => simp [hg] at h
    | text s =>
      simp only [hg] at h
      cases hc : clean_json_list s.data with
      | error em => simp [hc] at h
      | ok c =>
        simp only [hc] at h
        cases hl : loads (String.mk c) with
        | some w => simp [hl] at h
        | none =>
          simp only [hl] at h
          by_cases h0 : 0 < n
          · simp only [h0, if_true] at h
            match j with
            | 0 =>
              rw [pow_zero, mul_one, Nat.add_zero]
              exact ⟨s, c, hg, hc, hl⟩
            | j' + 1 =>
              have hidx : maxR - n + j' = maxR - (n + 1) + (j' + 1) := by omega
              have htemp : temp * (1 / 2) * (1 / 2) ^ j' = temp * (1 / 2) ^ (j' + 1) := by
                rw [pow_succ]
                ring
              have := ih (temp * (1 / 2)) j' (by omega) (by simpa using h)
              rwa [hidx, htemp] at this
          · simp [h0] at h

end GenerateJson

/-- C4: with the text generator and the JSON deserializer as oracles, a
`generate_json` run with `maxR ≥ 1` attempts invokes the generator at most
`maxR` times; a successful result is the deserialization of the first attempt
whose output extracts and parses, every earlier attempt having failed to
deserialize, with attempt `k` made at temperature `t0·(1/2)^k`; and if all
`maxR` attempts fail to deserialize, the run fails with the final
parse-failure error. -/
theorem generate_json_retry_contract {J : Type} (gen : Nat → ℚ → GenAttempt)
    (loads : String → Option J) (t0 : ℚ) (maxR : Nat) (hmax : 1 ≤ maxR) :
    (generate_json gen loads t0 maxR).calls ≤ maxR ∧
    (∀ v : J, (generate_json gen loads t0 maxR).result = .ok v →
      ∃ k < maxR, attemptParses gen loads k (t0 * (1 / 2) ^ k) v ∧
        ∀ j < k, attemptDeserFails gen loads j (t0 * (1 / 2) ^ j)) ∧
    ((∀ j < maxR, attemptDeserFails gen loads j (t0 * (1 / 2) ^ j)) →
      (generate_json gen loads t0 maxR).result =
        .error ("Failed to parse JSON after " ++ toString maxR ++ " attempts.")) := by
  refine ⟨generateJsonLoop_calls_le gen loads maxR maxR t0, ?_, ?_⟩
  · intro v hv
    obtain ⟨k, hk, hp, hf⟩ := generateJsonLoop_ok gen loads maxR maxR t0 v le_rfl hv
    refine ⟨k, hk, ?_, ?_⟩
    · have : maxR - maxR + k = k := by omega
      rwa [this] at hp
    · intro j hj
      have := hf j hj
      have hidx : maxR - maxR + j = j := by omega
      rwa [hidx] at this
  · intro hall
    apply generateJsonLoop_exhaust gen loads maxR maxR t0 hmax le_rfl
    intro d hd
    have hidx : maxR - maxR + d = d := by omega
    rw [hidx]
    exact hall d hd

/-- C5: a transport error from the generator on attempt `k` (the earlier
attempts having deserialize-failed) propagates immediately — the run fails
with the wrapped message after exactly `k + 1` generator calls — and every
retried (non-final) attempt of any run was a deserialize failure, never a
transport failure. -/
theorem generate_json_transport_propagation {J : Type} (gen : Nat → ℚ → GenAttempt)
    (loads : String → Option J) (t0 : ℚ) (maxR : Nat) (k : Nat) (m : String)
    (hk : k < maxR)
    (hpre : ∀ j < k, attemptDeserFails gen loads j (t0 * (1 / 2) ^ j))
    (hfail : gen k (t0 * (1 / 2) ^ k) = .fail m) :
    (generate_json gen loads t0 maxR).result = .error ("LLM JSON generation failed: " ++ m) ∧
    (generate_json gen loads t0 maxR).calls = k + 1 ∧
    (∀ j : Nat, j + 1 < (generate_json gen loads t0 maxR).calls →
      attemptDeserFails gen loads j (t0 * (1 / 2) ^ j)) := by
  have hidx : ∀ j : Nat, maxR - maxR + j = j := by omega
  obtain ⟨hr, hc⟩ := generateJsonLoop_transport gen loads maxR maxR t0 k m hk le_rfl
    (fun j hj => by rw [hidx j]; exact hpre j hj) (by rw [hidx k]; exact hfail)
  refine ⟨hr, hc, ?_⟩
  intro j hj
  have := generateJsonLoop_retry_only gen loads maxR maxR t0 j le_rfl hj
  rwa [hidx j] at this

/-- Witness for C4: with every attempt deserialize-failing, two attempts are
made and the run ends in the final parse error. -/
theorem generate_json_retry_contract_witness :
    (generate_json constGenBad noneLoads (3 / 10) 2).result =
      .error "Failed to parse JSON after 2 attempts." :=
  (generate_json_retry_contract constGenBad noneLoads (3 / 10) 2 (by norm_num)).2.2
    (fun _ _ => ⟨"\x7bbad\x7d", "\x7bbad\x7d".data, rfl, rfl, rfl⟩)

/-- Witness for C5: a transport error on the second attempt propagates at
once, after exactly two generator calls. -/
theorem generate_json_transport_propagation_witness :
    (generate_json genTransportSecond noneLoads (3 / 10) 3).result =
      .error "LLM JSON generation failed: boom" ∧
    (generate_json genTransportSecond noneLoads (3 / 10) 3).calls = 2 := by
  have h := generate_json_transport_propagation genTransportSecond noneLoads (3 / 10) 3 1 "boom"
    (by norm_num)
    (by
      intro j hj
      have hj0 : j = 0 := by omega
      subst hj0
      exact ⟨"\x7bbad\x7d", "\x7bbad\x7d".data, rfl, rfl, rfl⟩)
    rfl
  exact ⟨h.1, h.2.1⟩

/-! ## Claim C7 — CV-profile construction degradation policy -/

/-- C7 (counterexample): CV-profile construction *can* raise to its caller:
an input shorter than 50 stripped characters raises `ValueError` (modelled as
`.error`) before any extraction is attempted, so the claim's "for every input
text" fails. -/
theorem parse_text_short_input_raises :
    parse_text (fun _ : String => (Except.ok () : Except String Unit))
      (fun j _ => j) (fun _ => Except.ok ({} : CVProfile)) "hi" =
      Except.error "CV text is too short or empty" := rfl

/-- C7 (amended): for every input whose stripped length is at least 50, and
for all LLM / dict-update / validation oracles, `parse_text` never raises: it
always returns some profile, and whenever structured extraction or schema
validation fails it returns the minimal fallback profile whose `raw_text` is
the (possibly truncated) input and whose `summary` states the failure
reason. -/
theorem parse_text_degrades_gracefully {J : Type} (llm : String → Except String J)
    (setR : J → String → J) (validat : J → Except String CVProfile) (cv_text : String)
    (h : 50 ≤ (pyStrip cv_text.data).length) :
    (∃ p, parse_text llm setR validat cv_text = .ok p) ∧
    (∀ e, llm (cv_parse_prompt (truncated cv_text)) = .error e →
      parse_text llm setR validat cv_text = .ok (fallbackProfile (truncated cv_text) e)) ∧
    (∀ j e, llm (cv_parse_prompt (truncated cv_text)) = .ok j →
      validat (setR j (truncated cv_text)) = .error e →
      parse_text llm setR validat cv_text = .ok (fallbackProfile (truncated cv_text) e)) ∧
    (∀ e, (fallbackProfile (truncated cv_text) e).raw_text = truncated cv_text ∧
      (fallbackProfile (truncated cv_text) e).summary =
        some ("CV parsing failed: " ++ e ++ ". Using raw text.")) := by
  have hne : ¬ (cv_text = "" ∨ (pyStrip cv_text.data).length < 50) := by
    rintro (he | hlt)
    · rw [he] at h
      simp [pyStrip] at h
    · omega
  have h2 : ∀ e, llm (cv_parse_prompt (truncated cv_text)) = .error e →
      parse_text llm setR validat cv_text = .ok (fallbackProfile (truncated cv_text) e) := by
    intro e hllm
    simp only [parse_text, if_neg hne, hllm]
  have h3 : ∀ j e, llm (cv_parse_prompt (truncated cv_text)) = .ok j →
      validat (setR j (truncated cv_text)) = .error e →
      parse_text llm setR validat cv_text = .ok (fallbackProfile (truncated cv_text) e) := by
    intro j e hllm hval
    simp only [parse_text, if_neg hne, hllm, hval]
  have h4 : ∀ j p, llm (cv_parse_prompt (truncated cv_text)) = .ok j →
      validat (setR j (truncated cv_text)) = .ok p →
      parse_text llm setR validat cv_text = .ok p := by
    intro j p hllm hval
    simp only [parse_text, if_neg hne, hllm, hval]
  refine ⟨?_, h2, h3, fun e => ⟨rfl, rfl⟩⟩
  cases hllm : llm (cv_parse_prompt (truncated cv_text)) with
  | error e => exact ⟨_, h2 e hllm⟩
  | ok j =>
    cases hval : validat (setR j (truncated cv_text)) with
    | error e => exact ⟨_, h3 j e hllm hval⟩
    | ok p => exact ⟨p, h4 j p hllm hval⟩

/-- Witness for C7: a long-enough text with a failing LLM oracle yields the
fallback profile instead of an error. -/
theorem parse_text_degrades_gracefully_witness :
    parse_text (fun _ : String => (Except.error "boom" : Except String Unit))
      (fun j _ => j) (fun _ => Except.ok ({} : CVProfile)) c7Text =
      Except.ok (fallbackProfile (truncated c7Text) "boom") :=
  (parse_text_degrades_gracefully (fun _ : String => (Except.error "boom" : Except String Unit))
    (fun j _ => j) (fun _ => Except.ok ({} : CVProfile)) c7Text (by decide)).2.1 "boom" rfl

/-! ## Claim C8 — email permutation generation -/

/-- C8 (counterexample): for an empty first name the source raises
`IndexError` on `first[0]` while building the pattern list (modelled as
`none`), so the three candidates are *not* produced for every first name. -/
theorem email_permutations_empty_first_name :
    generate_email_permutations "" "Doe" "acme.com" = none := rfl

/-- C8 (amended): `generate_email_permutations("Jane","Doe","acme.com")`
returns exactly the three claimed candidates with confidences 0.7, 0.6, 0.5;
and in general, whenever the normalised first name is non-empty, the first
three patterns of `{first.last, first, firstlast, f.last, first_last}@domain`
are produced in order with those confidences and the `guessed` tag. -/
theorem email_permutations_patterns :
    (generate_email_permutations "Jane" "Doe" "acme.com" = some
      [{ name := "Jane Doe", role := none, email := some "jane.doe@acme.com",
         email_confidence := "guessed", linkedin := none,
         source := "email_permutation", confidence_score := 7 / 10 },
       { name := "Jane Doe", role := none, email := some "jane@acme.com",
         email_confidence := "guessed", linkedin := none,
         source := "email_permutation", confidence_score := 6 / 10 },
       { name := "Jane Doe", role := none, email := some "janedoe@acme.com",
         email_confidence := "guessed", linkedin := none,
         source := "email_permutation", confidence_score := 5 / 10 }]) ∧
    (∀ (fn ln dom : String) (f0 : Char) (frest : List Char), normToken fn = f0 :: frest →
      generate_email_permutations fn ln dom = some
        [{ name := fn ++ " " ++ ln, role := none,
           email := some (String.mk (normToken fn ++ '.' :: normToken ln ++ '@' :: normDomain dom)),
           email_confidence := "guessed", linkedin := none,
           source := "email_permutation", confidence_score := 7 / 10 },
         { name := fn ++ " " ++ ln, role := none,
           email := some (String.mk (normToken fn ++ '@' :: normDomain dom)),
           email_confidence := "guessed", linkedin := none,
           source := "email_permutation", confidence_score := 6 / 10 },
         { name := fn ++ " " ++ ln, role := none,
           email := some (String.mk (normToken fn ++ normToken ln ++ '@' :: normDomain dom)),
           email_confidence := "guessed", linkedin := none,
           source := "email_permutation", confidence_score := 5 / 10 }]) := by
  have hgen : ∀ (fn ln dom : String) (f0 : Char) (frest : List Char), normToken fn = f0 :: frest →
      generate_email_permutations fn ln dom = some
        [{ name := fn ++ " " ++ ln, role := none,
           email := some (String.mk (normToken fn ++ '.' :: normToken ln ++ '@' :: normDomain dom)),
           email_confidence := "guessed", linkedin := none,
           source := "email_permutation", confidence_score := 7 / 10 },
         { name := fn ++ " " ++ ln, role := none,
           email := some (String.mk (normToken fn ++ '@' :: normDomain dom)),
           email_confidence := "guessed", linkedin := none,
           source := "email_permutation", confidence_score := 6 / 10 },
         { name := fn ++ " " ++ ln, role := none,
           email := some (String.mk (normToken fn ++ normToken ln ++ '@' :: normDomain dom)),
           email_confidence := "guessed", linkedin := none,
           source := "email_permutation", confidence_score := 5 / 10 }] := by
    intro fn ln dom f0 frest h
    simp only [generate_email_permutations, h, List.take_succ_cons, List.take_zero,
      List.enum, List.enumFrom, List.map, Option.some.injEq, List.cons.injEq,
      ContactCandidate.mk.injEq, and_true, true_and]
    norm_num
  refine ⟨?_, hgen⟩
  have hj := hgen "Jane" "Doe" "acme.com" 'j' ['a', 'n', 'e'] (by decide)
  rw [hj]
  simp only [Option.some.injEq, List.cons.injEq, ContactCandidate.mk.injEq, and_true, true_and]
  refine ⟨⟨by decide, rfl⟩, ⟨by decide, rfl⟩, ⟨by decide, rfl⟩⟩

/-- Witness for C8 at a second concrete input exercising the `user@domain`
prefix stripping. -/
theorem email_permutations_patterns_witness :
    generate_email_permutations "Ada" "Lovelace" "user@example.org" = some
      [{ name := "Ada Lovelace", role := none, email := some "ada.lovelace@example.org",
         email_confidence := "guessed", linkedin := none,
         source := "email_permutation", confidence_score := 7 / 10 },
       { name := "Ada Lovelace", role := none, email := some "ada@example.org",
         email_confidence := "guessed", linkedin := none,
         source := "email_permutation", confidence_score := 6 / 10 },
       { name := "Ada Lovelace", role := none, email := some "adalovelace@example.org",
         email_confidence := "guessed", linkedin := none,
         source := "email_permutation", confidence_score := 5 / 10 }] := by
  have hj := email_permutations_patterns.2 "Ada" "Lovelace" "user@example.org" 'a' ['d', 'a']
    (by decide)
  rw [hj]
  simp only [Option.some.injEq, List.cons.injEq, ContactCandidate.mk.injEq, and_true, true_and]
  refine ⟨⟨by decide, rfl⟩, ⟨by decide, rfl⟩, ⟨by decide, rfl⟩⟩

/-! ## Claim C9 — contact confidence score -/

/-- C9: the contact confidence score equals 0.3 plus 0.4 for a (truthy)
email, plus 0.2 for a LinkedIn URL, plus 0.1 for a case-insensitive company
mention in the snippet, clamped to 1.0; it always lies in [0,1]; and it is
monotonically non-decreasing in each of the three boolean signals. -/
theorem confidence_monotone_bounded (email email' linkedin linkedin' : Option String)
    (company company' snippet snippet' : String) :
    (0 ≤ calculate_confidence email linkedin company snippet ∧
      calculate_confidence email linkedin company snippet ≤ 1) ∧
    (calculate_confidence email linkedin company snippet =
      min ((3 : ℚ) / 10 + (if pyTruthy email then (4 : ℚ) / 10 else 0) +
        (if pyTruthy linkedin then (2 : ℚ) / 10 else 0) +
        (if companyInSnippet company snippet then (1 : ℚ) / 10 else 0)) 1) ∧
    ((pyTruthy email = true → pyTruthy email' = true) →
      calculate_confidence email linkedin company snippet ≤
        calculate_confidence email' linkedin company snippet) ∧
    ((pyTruthy linkedin = true → pyTruthy linkedin' = true) →
      calculate_confidence email linkedin company snippet ≤
        calculate_confidence email linkedin' company snippet) ∧
    ((companyInSnippet company snippet = true → companyInSnippet company' snippet' = true) →
      calculate_confidence email linkedin company snippet ≤
        calculate_confidence email linkedin company' snippet') := by
  refine ⟨?_, ?_, ?_, ?_, ?_⟩
  · simp only [calculate_confidence]
    split_ifs <;> constructor <;> norm_num [le_min_iff, min_le_iff]
  · simp only [calculate_confidence]
    split_ifs <;> norm_num
  · intro himp
    simp only [calculate_confidence]
    by_cases he : pyTruthy email = true
    · have he' : pyTruthy email' = true := himp he
      simp only [he, he', if_true]
      exact le_rfl
    · simp only [he, if_false]
      by_cases he' : pyTruthy email' = true <;>
        simp only [he', if_true, if_false] <;> split_ifs <;> norm_num [min_def]
  · intro himp
    simp only [calculate_confidence]
    by_cases hl : pyTruthy linkedin = true
    · have hl' : pyTruthy linkedin' = true := himp hl
      simp only [hl, hl', if_true]
      exact le_rfl
    · simp only [hl, if_false]
      by_cases hl' : pyTruthy linkedin' = true <;>
        simp only [hl', if_true, if_false] <;> split_ifs <;> norm_num [min_def]
  · intro himp
    simp only [calculate_confidence]
    by_cases hc : companyInSnippet company snippet = true
    · have hc' : companyInSnippet company' snippet' = true := himp hc
      simp only [hc, hc', if_true]
      exact le_rfl
    · simp only [hc, if_false]
      by_cases hc' : companyInSnippet company' snippet' = true <;>
        simp only [hc', if_true, if_false] <;> split_ifs <;> norm_num [min_def]

/-- Witness for C9: adding an email signal can only raise the score. -/
theorem confidence_monotone_bounded_witness :
    calculate_confidence none none "Acme" "acme is hiring" ≤
      calculate_confidence (some "a@b.co") none "Acme" "acme is hiring" :=
  (confidence_monotone_bounded none (some "a@b.co") none none
    "Acme" "Acme" "acme is hiring" "acme is hiring").2.2.1 (by decide)

/-! ## Claim C10 — email-confidence tags of extracted contacts -/

/-- C10: a contact extracted from a search result is tagged `confirmed`
exactly when an email address was found in the result's title and snippet
(and its `email` field is exactly that find), never `guessed`; the `guessed`
tag is produced only by email-permutation generation, all of whose candidates
carry it. -/
theorem extract_contact_email_confidence (r : SearchResult) (company : String)
    (c : ContactCandidate) (h : extract_contact_from_result r company = some c) :
    (c.email_confidence = "confirmed" ↔ pyTruthy c.email = true) ∧
    c.email_confidence ≠ "guessed" ∧
    c.email = extract_email (r.title ++ " " ++ r.body) ∧
    (∀ (fn ln dom : String) (l : List ContactCandidate),
      generate_email_permutations fn ln dom = some l →
      ∀ x ∈ l, x.email_confidence = "guessed") := by
  have hperm : ∀ (fn ln dom : String) (l : List ContactCandidate),
      generate_email_permutations fn ln dom = some l →
      ∀ x ∈ l, x.email_confidence = "guessed" := by
    intro fn ln dom l hl x hx
    simp only [generate_email_permutations] at hl
    cases hf : normToken fn with
    | nil =>
      simp only [hf] at hl
      exact absurd hl (by simp)
    | cons f0 frest =>
      simp only [hf, Option.some.injEq] at hl
      subst hl
      simp only [List.mem_map] at hx
      obtain ⟨ie, -, rfl⟩ := hx
      rfl
  simp only [extract_contact_from_result] at h
  cases hn : extract_name_from_title r.title with
  | none =>
    simp only [hn] at h
    exact absurd h (by simp)
  | some nme =>
    simp only [hn] at h
    by_cases hne : nme = ""
    · rw [if_pos hne] at h
      exact absurd h (by simp)
    · simp only [hne, if_false, Option.some.injEq] at h
      subst h
      by_cases hp : pyTruthy (extract_email (r.title ++ " " ++ r.body)) = true
      · refine ⟨?_, ?_, ?_, hperm⟩ <;> simp [hp]
      · simp only [Bool.not_eq_true] at hp
        refine ⟨?_, ?_, ?_, hperm⟩ <;> simp [hp]

/-- Witness for C10 at a concrete LinkedIn-style search result containing an
email address: the extracted contact is tagged `confirmed`, not `guessed`. -/
theorem extract_contact_email_confidence_witness :
    (c10Contact.email_confidence = "confirmed" ↔ pyTruthy c10Contact.email = true) ∧
    c10Contact.email_confidence ≠ "guessed" := by
  have hname : extract_name_from_title "Jane Doe - Recruiter | LinkedIn" = some "Jane Doe" := by
    decide
  have hemail : extract_email ("Jane Doe - Recruiter | LinkedIn" ++ " " ++
      "Contact jane@acme.com today") = some "jane@acme.com" := by decide
  have hrole : extract_role "Jane Doe - Recruiter | LinkedIn" "Contact jane@acme.com today" =
      some "- Recruiter |" := by decide
  have hlink : containsSeq "linkedin.com".data "https://linkedin.com/in/janedoe".data = true := by
    decide
  have hpt : pyTruthy (some "jane@acme.com") = true := by decide
  have hconf : calculate_confidence (some "jane@acme.com") (some "https://linkedin.com/in/janedoe")
      "Acme" "Contact jane@acme.com today" = 1 := by
    have h3 : companyInSnippet "Acme" "Contact jane@acme.com today" = true := by decide
    simp only [calculate_confidence, hpt, h3, if_true]
    have h2 : pyTruthy (some "https://linkedin.com/in/janedoe") = true := by decide
    simp only [h2, if_true]
    norm_num [min_def]
  have h : extract_contact_from_result c10Result "Acme" = some c10Contact := by
    simp only [extract_contact_from_result, c10Result, hname, hemail, hrole, hlink, hpt,
      if_true, hconf]
    rw [if_neg (by decide : ¬ ("Jane Doe" = ""))]
    simp only [c10Contact]
  obtain ⟨h1, h2, -, -⟩ := extract_contact_email_confidence c10Result "Acme" c10Contact h
  exact ⟨h1, h2⟩
